import Mathlib

/-!
Verification of the KBFS per-folder MD journal spec against the sources.

Part 1 embeds the MD-server error taxonomy and its RPC unwrapper
(source: `src/unnamed/part_001`, package `libkbfs`) and the
`splitExtension` helper (source: `src/libkbfs/conflict_renamer.go`).

Part 2 models the per-TLF MD journal.  The `mdJournal` implementation
itself (`md_journal.go`) is not among the sources; only its test file is
(`src/unnamed/part_003`).  Those definitions are therefore modelled from
the spec (sections 3, 4.1, 4.3), with behaviour pinned by the tests in
`src/unnamed/part_003` where the spec is ambiguous; each such definition
carries a doc comment saying so.
-/

/-! ### Error status codes, from the `const` block of `src/unnamed/part_001` -/

/-- Status code for a generic server error. -/
abbrev StatusCodeMDServerError : Int := 2800

/-- Status code for a generic client error. -/
abbrev StatusCodeMDServerErrorBadRequest : Int := 2801

/-- Status code for a revision conflict error. -/
abbrev StatusCodeMDServerErrorConflictRevision : Int := 2802

/-- Status code for a PrevRoot pointer conflict error. -/
abbrev StatusCodeMDServerErrorConflictPrevRoot : Int := 2803

/-- Status code for a disk usage conflict error. -/
abbrev StatusCodeMDServerErrorConflictDiskUsage : Int := 2804

/-- Status code indicating the folder truncation lock is locked. -/
abbrev StatusCodeMDServerErrorLocked : Int := 2805

/-- Status code indicating the client is unauthorized. -/
abbrev StatusCodeMDServerErrorUnauthorized : Int := 2806

/-- Status code indicating the client should initiate backoff. -/
abbrev StatusCodeMDServerErrorThrottle : Int := 2807

/-- Status code indicating a conditional write failed. -/
abbrev StatusCodeMDServerErrorConditionFailed : Int := 2808

/-- Status code indicating the client cannot write to the TLF. -/
abbrev StatusCodeMDServerErrorWriteAccess : Int := 2809

/-- Status code for a folder handle / folder ID mapping conflict. -/
abbrev StatusCodeMDServerErrorConflictFolderMapping : Int := 2810

/-- The eleven taxonomy codes of spec section 4.5. -/
def mdServerStatusCodes : List Int :=
  [StatusCodeMDServerError, StatusCodeMDServerErrorBadRequest,
   StatusCodeMDServerErrorConflictRevision, StatusCodeMDServerErrorConflictPrevRoot,
   StatusCodeMDServerErrorConflictDiskUsage, StatusCodeMDServerErrorLocked,
   StatusCodeMDServerErrorUnauthorized, StatusCodeMDServerErrorThrottle,
   StatusCodeMDServerErrorConditionFailed, StatusCodeMDServerErrorWriteAccess,
   StatusCodeMDServerErrorConflictFolderMapping]

/-- Embedding of `keybase1.Status`: a generic status record crossing the RPC
boundary, with code, name, description and key/value fields. -/
structure Status where
  Code : Int
  Name : String
  Desc : String
  Fields : List (String × String)
deriving DecidableEq, Repr

/-- Embedding of `MDServerErrorThrottle` (Go `Err error` is modelled by its
message string, which is what `ToStatus` reads). -/
structure MDServerErrorThrottle where
  Err : String
deriving DecidableEq, Repr

/-- Embedding of `MDServerErrorThrottle.ToStatus` from `src/unnamed/part_001`. -/
def MDServerErrorThrottle.ToStatus (e : MDServerErrorThrottle) : Status :=
  { Code := StatusCodeMDServerErrorThrottle
    Name := "THROTTLE"
    Desc := e.Err
    Fields := [] }

/-- Embedding of `MDServerErrorConditionFailed` (Go `Err error` modelled by its
message string). -/
structure MDServerErrorConditionFailed where
  Err : String
deriving DecidableEq, Repr

/-- Embedding of `MDServerErrorConditionFailed.ToStatus` from
`src/unnamed/part_001` lines 233-239.  Note the source sets
`s.Code = StatusCodeMDServerErrorThrottle`, not
`StatusCodeMDServerErrorConditionFailed`. -/
def MDServerErrorConditionFailed.ToStatus (e : MDServerErrorConditionFailed) : Status :=
  { Code := StatusCodeMDServerErrorThrottle
    Name := "CONDITION_FAILED"
    Desc := e.Err
    Fields := [] }

/-- The typed application errors `MDServerErrorUnwrapper.UnwrapError` can
produce, one constructor per error type constructed in its `switch`
(`src/unnamed/part_001` lines 288-333).  Each constructor carries exactly the
fields the unwrapper fills there: the `Desc`-carrying types get `s.Desc`,
while `Locked`, `Unauthorized` and `WriteAccess` are built with no fields,
and the default case builds a `libkb.AppStatusError` carrying the whole
record. -/
inductive MDServerErrorKind where
  | serverError (desc : String)
  | badRequest (reason : String)
  | conflictRevision (desc : String)
  | conflictPrevRoot (desc : String)
  | conflictDiskUsage (desc : String)
  | locked
  | unauthorized
  | throttle (desc : String)
  | conditionFailed (desc : String)
  | writeAccess
  | conflictFolderMapping (desc : String)
  | appStatusError (code : Int) (name : String) (desc : String)
      (fields : List (String × String))
deriving DecidableEq, Repr

/-- One step of the Go map assignment `ase.Fields[f.Key] = f.Value`: overwrite
the value when the key is present, otherwise add the binding. -/
def mapSet (m : List (String × String)) (k v : String) : List (String × String) :=
  if m.any (fun p => p.1 = k) then
    m.map (fun p => if p.1 = k then (p.1, v) else p)
  else m ++ [(k, v)]

/-- The loop `for _, f := range s.Fields { ase.Fields[f.Key] = f.Value }`:
build the map by inserting the pairs in slice order. -/
def buildFields (fields : List (String × String)) : List (String × String) :=
  fields.foldl (fun m p => mapSet m p.1 p.2) []

/-- The `arg interface{}` passed to `UnwrapError`: either a (possibly nil)
pointer to a `keybase1.Status`, or some other value, in which case the type
assertion fails. -/
inductive UnwrapArg where
  | statusPtr (s : Option Status)
  | nonStatus
deriving DecidableEq, Repr

/-- The `switch s.Code` of `UnwrapError` (`src/unnamed/part_001` lines
284-333), including the preceding `s.Code == 0` early return.  Returns the
application error (`nil` is `none`). -/
def unwrapAppError (s : Status) : Option MDServerErrorKind :=
  if s.Code = 0 then none
  else if s.Code = StatusCodeMDServerError then
    some (MDServerErrorKind.serverError s.Desc)
  else if s.Code = StatusCodeMDServerErrorBadRequest then
    some (MDServerErrorKind.badRequest s.Desc)
  else if s.Code = StatusCodeMDServerErrorConflictRevision then
    some (MDServerErrorKind.conflictRevision s.Desc)
  else if s.Code = StatusCodeMDServerErrorConflictPrevRoot then
    some (MDServerErrorKind.conflictPrevRoot s.Desc)
  else if s.Code = StatusCodeMDServerErrorConflictDiskUsage then
    some (MDServerErrorKind.conflictDiskUsage s.Desc)
  else if s.Code = StatusCodeMDServerErrorLocked then
    some MDServerErrorKind.locked
  else if s.Code = StatusCodeMDServerErrorUnauthorized then
    some MDServerErrorKind.unauthorized
  else if s.Code = StatusCodeMDServerErrorThrottle then
    some (MDServerErrorKind.throttle s.Desc)
  else if s.Code = StatusCodeMDServerErrorConditionFailed then
    some (MDServerErrorKind.conditionFailed s.Desc)
  else if s.Code = StatusCodeMDServerErrorWriteAccess then
    some MDServerErrorKind.writeAccess
  else if s.Code = StatusCodeMDServerErrorConflictFolderMapping then
    some (MDServerErrorKind.conflictFolderMapping s.Desc)
  else
    some (MDServerErrorKind.appStatusError s.Code s.Name s.Desc
      (buildFields s.Fields))

/-- Embedding of `MDServerErrorUnwrapper.UnwrapError` from
`src/unnamed/part_001` lines 278-336: a failed type assertion yields a
dispatch error; a nil pointer or a zero code yields `(nil, nil)`; otherwise
the code is dispatched through the switch and the dispatch error is nil. -/
def MDServerErrorUnwrapper.UnwrapError (arg : UnwrapArg) :
    Option MDServerErrorKind × Option String :=
  match arg with
  | UnwrapArg.nonStatus =>
    (none,
     some "Error converting arg to keybase1.Status object in MDServerErrorUnwrapper.UnwrapError")
  | UnwrapArg.statusPtr none => (none, none)
  | UnwrapArg.statusPtr (some s) => (unwrapAppError s, none)

/-! ### splitExtension, from `src/libkbfs/conflict_renamer.go` lines 42-60

Go strings are byte sequences and `splitExtension` indexes bytes, so the
embedding works over `List Nat` (byte values). -/

/-- Byte value of the dot character. -/
def dotByte : Nat := 46

/-- Byte value of the forward slash. -/
def slashByte : Nat := 47

/-- Byte value of the backslash. -/
def backslashByte : Nat := 92

/-- Byte value of the space character. -/
def spaceByte : Nat := 32

/-- Byte values of the four-byte string checked by the multipart-extension
special case of `splitExtension`. -/
def tarBytes : List Nat := [46, 116, 97, 114]

/-- Body of the `for i := len(path) - 1; i > 0; i--` loop of
`splitExtension`: `splitExtensionAt path i` runs the loop starting at byte
index `i`; index 0 corresponds to the loop guard failing, where the function
returns `(path, "")`. -/
def splitExtensionAt (path : List Nat) : Nat → List Nat × List Nat
  | 0 => (path, [])
  | n + 1 =>
    let c := path.getD (n + 1) 0
    if c = dotByte then
      let i2 := if 4 ≤ n + 1 ∧ (path.drop (n + 1 - 4)).take 4 = tarBytes
        then n + 1 - 4 else n + 1
      if i2 = 0 ∨ path.getD (i2 - 1) 0 = slashByte ∨
          path.getD (i2 - 1) 0 = backslashByte then
        (path, [])
      else
        (path.take i2, path.drop i2)
    else if c = slashByte ∨ c = backslashByte ∨ c = spaceByte then
      (path, [])
    else
      splitExtensionAt path n

/-- Embedding of `splitExtension`: split a filename into a base name and the
extension. -/
def splitExtension (path : List Nat) : List Nat × List Nat :=
  splitExtensionAt path (path.length - 1)

example : splitExtension [102, 46, 116, 120, 116] = ([102], [46, 116, 120, 116]) := by
  decide

example :
    splitExtension [102, 46, 116, 97, 114, 46, 103, 122] =
      ([102], [46, 116, 97, 114, 46, 103, 122]) := by
  decide

example : splitExtension [46, 116, 97, 114, 46, 103, 122] =
    ([46, 116, 97, 114, 46, 103, 122], []) := by
  decide

/-! ### Part 2: the per-TLF MD journal, modelled from the spec

The `mdJournal` implementation (`md_journal.go`) is not among the source
files; only its test file `src/unnamed/part_003` is.  The definitions below
are therefore modelled from spec sections 3, 4.1 and 4.3, with behaviour
pinned by those tests where noted. -/

/-- Modelled from the spec: `BranchID` is an opaque identifier whose reserved
value `NullBranchID` denotes the master (merged) branch (section 3); the
16-byte value is abstracted to a natural number. -/
abbrev BranchID : Type := Nat

/-- Modelled from the spec: the reserved null branch id. -/
def NullBranchID : BranchID := 0

/-- Modelled from the spec: `MergeStatus` is `Merged` or `Unmerged`
(section 3). -/
inductive MergeStatus where
  | Merged
  | Unmerged
deriving DecidableEq, Repr

/-- Modelled from the spec: `MdID` is the content hash of a revision's
canonical encoding (section 3).  The hash is modelled as an injective
constructor over the revision's fields; `fake` stands for the
`fakeMdID` values the tests seed chains with. -/
inductive MdID where
  | fake (b : Nat)
  | hash (revision : Nat) (bid : BranchID) (mStatus : MergeStatus) (prevRoot : MdID)
deriving DecidableEq, Repr

/-- Modelled from the spec: the fields of a signed root-metadata object that
the journal claims depend on — revision number, branch id, merge status and
previous-root pointer (section 3, RootMetadataSigned).  Signatures and the
private payload do not enter any claim and are omitted. -/
structure BareRMD where
  revision : Nat
  bid : BranchID
  mStatus : MergeStatus
  prevRoot : MdID
deriving DecidableEq, Repr

/-- Modelled from the spec: computing the MdID of a revision (the content
hash of its canonical encoding, section 3). -/
def mdID (r : BareRMD) : MdID :=
  MdID.hash r.revision r.bid r.mStatus r.prevRoot

/-- Modelled from the spec: `CheckValidSuccessor(prevID, next)` on `cur`
passes iff `next.revision = cur.revision + 1`, `next.prevRoot = prevID`,
`next.branchID = cur.branchID` and `next.mergeStatus = cur.mergeStatus`
(section 4.1). -/
def CheckValidSuccessor (cur : BareRMD) (prevID : MdID) (next : BareRMD) : Bool :=
  decide (next.revision = cur.revision + 1) && decide (next.prevRoot = prevID) &&
  decide (next.bid = cur.bid) && decide (next.mStatus = cur.mStatus)

/-- Chain validity of the entries that follow `a`: each entry is a valid
successor of the one before it, the first of the one given. -/
def chainAfter (a : BareRMD) : List BareRMD → Bool
  | [] => true
  | e :: rest => CheckValidSuccessor a (mdID a) e && chainAfter e rest

/-- Modelled from the spec: the journal invariant that every adjacent pair of
entries satisfies `CheckValidSuccessor` (section 3, journal state). -/
def validChain : List BareRMD → Bool
  | [] => true
  | e :: rest => chainAfter e rest

/-- Revision numbers of the entries are consecutive starting right after
revision `r`. -/
def revsFrom (r : Nat) : List BareRMD → Bool
  | [] => true
  | e :: rest => decide (e.revision = r + 1) && revsFrom e.revision rest

/-- Modelled from the spec: the `Sign` collaborator (section 6).  Signature
contents are irrelevant to the claims, so signing returns only the updated
signer; a signer with a finite call budget models the `limitedCryptoSigner`
of `src/unnamed/part_003` (a signer whose `Sign` fails once `remaining`
reaches zero). -/
structure Signer where
  remaining : Option Nat
deriving DecidableEq, Repr

/-- One `Sign` call: fails when the budget is exhausted. -/
def Signer.sign (sg : Signer) : Option Signer :=
  match sg.remaining with
  | none => some sg
  | some 0 => none
  | some (n + 1) => some ⟨some n⟩

/-- Modelled from the spec: the journal state — the ordered entries (earliest
first) and the recorded `branchID` (section 3). -/
structure MDJournal where
  entries : List BareRMD
  branchID : BranchID
deriving DecidableEq, Repr

/-- Errors of `convertToBranch`. -/
inductive ConvertErr where
  | alreadyBranch
  | signFailed
deriving DecidableEq, Repr

/-- Modelled from the spec: step 3 of `convertToBranch` (section 4.3) — for
each entry in order, clone it, set its branch id to `b` and its merge status
to `Unmerged`, recompute `prevRoot` to point at the newly signed predecessor
(`prev`), and re-sign (writer metadata, then the whole object: two `Sign`
calls).  The converted entries accumulate in a temporary list; any signing
failure aborts with `none` while still reporting the consumed signer. -/
def convertEntries (b : BranchID) :
    Signer → MdID → List BareRMD → Option (List BareRMD) × Signer
  | sg, _, [] => (some [], sg)
  | sg, prev, e :: rest =>
    match sg.sign with
    | none => (none, sg)
    | some sg1 =>
      match sg1.sign with
      | none => (none, sg1)
      | some sg2 =>
        match convertEntries b sg2
            (mdID { e with bid := b, mStatus := MergeStatus.Unmerged, prevRoot := prev })
            rest with
        | (none, sg3) => (none, sg3)
        | (some out, sg3) =>
          (some ({ e with bid := b, mStatus := MergeStatus.Unmerged, prevRoot := prev } :: out),
           sg3)

/-- Modelled from the spec: `convertToBranch` (section 4.3).  Fails when the
journal is already on a branch; otherwise re-signs every entry onto the fresh
non-null branch id `b` (passed explicitly in place of the random generation)
into a temporary log, and only on full success swaps the temporary log in and
records `b`; on any failure the journal is returned unchanged (step 4,
atomicity). -/
def MDJournal.convertToBranch (j : MDJournal) (sg : Signer) (b : BranchID) :
    Except ConvertErr Unit × MDJournal × Signer :=
  if j.branchID ≠ NullBranchID then (Except.error ConvertErr.alreadyBranch, j, sg)
  else
    match j.entries with
    | [] => (Except.ok (), ⟨[], b⟩, sg)
    | e :: rest =>
      match convertEntries b sg e.prevRoot (e :: rest) with
      | (none, sg') => (Except.error ConvertErr.signFailed, j, sg')
      | (some out, sg') => (Except.ok (), ⟨out, b⟩, sg')

/-- Errors of `clear`. -/
inductive ClearErr where
  | clearMaster
deriving DecidableEq, Repr

/-- Modelled from the spec: `clear(ctx, uid, branchID)` (section 4.3) — fails
on the null branch id, no-ops on a mismatched id, and on a match runs
`clearAll` and resets the recorded branch id to null. -/
def MDJournal.clear (j : MDJournal) (bid : BranchID) : Except ClearErr Unit × MDJournal :=
  if bid = NullBranchID then (Except.error ClearErr.clearMaster, j)
  else if bid = j.branchID then (Except.ok (), ⟨[], NullBranchID⟩)
  else (Except.ok (), j)

/-- Errors the MD server's `Put` can return in the flush scenarios of the
claims (spec section 4.3's outcome table). -/
inductive PutErr where
  | conflictRevision
  | cancelled
  | other
deriving DecidableEq, Repr

/-- Embedding of the `shimMDServer` of `src/unnamed/part_003` lines 507-538:
`Put` consumes a queued `nextErr` if set, otherwise records the RMDS — and,
pretending every cancel happens after the actual put, reports a cancellation
error when the context is cancelled; `GetRange` returns and consumes the
queued `nextGetRange`. -/
structure ShimMDServer where
  rmdses : List BareRMD
  nextGetRange : List BareRMD
  nextErr : Option PutErr
deriving DecidableEq, Repr

/-- The shim server's `Put`. -/
def ShimMDServer.put (s : ShimMDServer) (ctxCancelled : Bool) (r : BareRMD) :
    Option PutErr × ShimMDServer :=
  match s.nextErr with
  | some e => (some e, { s with nextErr := none })
  | none =>
    let s2 := { s with rmdses := s.rmdses ++ [r] }
    if ctxCancelled then (some PutErr.cancelled, s2) else (none, s2)

/-- The shim server's `GetRange`. -/
def ShimMDServer.getRange (s : ShimMDServer) : List BareRMD × ShimMDServer :=
  (s.nextGetRange, { s with nextGetRange := [] })

/-- Modelled from the spec: the double-flush comparison (section 4.3) — the
server's current tail (the last element of the returned range) has the same
MdID as the local entry `e`. -/
def tailMatches (range : List BareRMD) (e : BareRMD) : Bool :=
  match range.getLast? with
  | some tl => decide (mdID tl = mdID e)
  | none => false

/-- Errors of `flushOne`. -/
inductive FlushErr where
  | cancelled
  | server
  | conflict
  | convert (e : ConvertErr)
deriving DecidableEq, Repr

/-- Modelled from the spec: `flushOne` (section 4.3).  An empty journal
returns `false` without touching the server.  Otherwise the earliest entry is
submitted with `Put`: on success it is consumed; on `ConflictRevision` the
server's current tail is fetched with `GetRange` and, if its MdID equals the
local entry's (the double-flush rule), the entry is consumed as an idempotent
success; otherwise a merged journal is converted to a branch with the fresh
id `b` and the converted earliest entry is resubmitted and, on success,
consumed — the resubmission (rather than returning with the entry still
pending) is pinned by `TestMDJournalFlushConflict`, which requires the
conflicted call itself to land one entry on the server, matching the
section 8 invariant that a successful `flushOne` shrinks the journal by one;
a conflict on an already-unmerged journal, a cancellation and any other error
propagate without consuming. -/
def MDJournal.flushOne (j : MDJournal) (sg : Signer) (b : BranchID)
    (ctxCancelled : Bool) (srv : ShimMDServer) :
    Except FlushErr Bool × MDJournal × Signer × ShimMDServer :=
  match j.entries with
  | [] => (Except.ok false, j, sg, srv)
  | e :: rest =>
    match srv.put ctxCancelled e with
    | (none, srv1) => (Except.ok true, ⟨rest, j.branchID⟩, sg, srv1)
    | (some PutErr.cancelled, srv1) => (Except.error FlushErr.cancelled, j, sg, srv1)
    | (some PutErr.other, srv1) => (Except.error FlushErr.server, j, sg, srv1)
    | (some PutErr.conflictRevision, srv1) =>
      match srv1.getRange with
      | (range, srv2) =>
        if tailMatches range e then (Except.ok true, ⟨rest, j.branchID⟩, sg, srv2)
        else if j.branchID = NullBranchID then
          match j.convertToBranch sg b with
          | (Except.error er, j1, sg1) => (Except.error (FlushErr.convert er), j1, sg1, srv2)
          | (Except.ok _, j1, sg1) =>
            match j1.entries with
            | [] => (Except.ok false, j1, sg1, srv2)
            | e2 :: rest2 =>
              match srv2.put ctxCancelled e2 with
              | (none, srv3) => (Except.ok true, ⟨rest2, j1.branchID⟩, sg1, srv3)
              | (some PutErr.cancelled, srv3) =>
                (Except.error FlushErr.cancelled, j1, sg1, srv3)
              | (some PutErr.other, srv3) => (Except.error FlushErr.server, j1, sg1, srv3)
              | (some PutErr.conflictRevision, srv3) =>
                (Except.error FlushErr.conflict, j1, sg1, srv3)
        else (Except.error FlushErr.conflict, j, sg, srv2)

/-! ### Helper lemmas about the field map built by the unwrapper's default case -/

/-- A binding already present survives a `mapSet`. -/
lemma exists_mem_mapSet_of_exists_mem (m : List (String × String)) (k v k0 : String)
    (h : ∃ v0, (k0, v0) ∈ m) : ∃ v0, (k0, v0) ∈ mapSet m k v := by
  obtain ⟨v0, hv0⟩ := h
  unfold mapSet
  split
  · by_cases hk : k0 = k
    · refine ⟨v, ?_⟩
      refine List.mem_map.mpr ⟨(k0, v0), hv0, ?_⟩
      simp [hk]
    · refine ⟨v0, ?_⟩
      refine List.mem_map.mpr ⟨(k0, v0), hv0, ?_⟩
      simp [hk]
  · exact ⟨v0, List.mem_append_left _ hv0⟩

/-- After `mapSet m k v` the key `k` is bound. -/
lemma exists_mem_mapSet_self (m : List (String × String)) (k v : String) :
    ∃ v0, (k, v0) ∈ mapSet m k v := by
  unfold mapSet
  split
  · rename_i hany
    obtain ⟨p, hp, hpk⟩ := List.any_eq_true.mp hany
    refine ⟨v, List.mem_map.mpr ⟨p, hp, ?_⟩⟩
    simp only [decide_eq_true_eq] at hpk
    simp [hpk]
  · exact ⟨v, List.mem_append_right _ (by simp)⟩

/-- Folding further `mapSet` steps keeps existing keys bound. -/
lemma exists_mem_foldl_mapSet (fs : List (String × String)) :
    ∀ (m : List (String × String)) (k0 : String), (∃ v0, (k0, v0) ∈ m) →
      ∃ v0, (k0, v0) ∈ fs.foldl (fun acc q => mapSet acc q.1 q.2) m := by
  induction fs with
  | nil => intro m k0 h; exact h
  | cons q rest ih =>
    intro m k0 h
    exact ih (mapSet m q.1 q.2) k0 (exists_mem_mapSet_of_exists_mem m q.1 q.2 k0 h)

/-- Every key of the status record's field slice is bound in the map the
unwrapper's default case builds. -/
lemma exists_mem_buildFields (fs : List (String × String)) :
    ∀ p ∈ fs, ∃ v0, (p.1, v0) ∈ buildFields fs := by
  suffices h : ∀ (m : List (String × String)), ∀ p ∈ fs,
      ∃ v0, (p.1, v0) ∈ fs.foldl (fun acc q => mapSet acc q.1 q.2) m by
    intro p hp; exact h [] p hp
  induction fs with
  | nil => intro m p hp; cases hp
  | cons q rest ih =>
    intro m p hp
    rcases List.mem_cons.mp hp with rfl | hp
    · exact exists_mem_foldl_mapSet rest (mapSet m p.1 p.2) p.1
        (exists_mem_mapSet_self m p.1 p.2)
    · exact ih (mapSet m q.1 q.2) p hp

/-! ### Claims about the error taxonomy and the unwrapper -/

/-- Claim C1 (code bug in the source): `MDServerErrorConditionFailed.ToStatus`
is claimed to return a status whose `Code` is 2808
(`StatusCodeMDServerErrorConditionFailed`), but the source
(`src/unnamed/part_001` line 235) sets `Code` to
`StatusCodeMDServerErrorThrottle` = 2807, colliding with
`MDServerErrorThrottle.ToStatus` and disagreeing with the constant's own
documentation and with `UnwrapError`, which maps 2808 back to
`MDServerErrorConditionFailed`.  This theorem evaluates the embedded code at
a failing input. -/
theorem conditionFailed_toStatus_code_is_throttle :
    (MDServerErrorConditionFailed.ToStatus ⟨"race"⟩).Code = StatusCodeMDServerErrorThrottle ∧
    (MDServerErrorConditionFailed.ToStatus ⟨"race"⟩).Code ≠
      StatusCodeMDServerErrorConditionFailed ∧
    (MDServerErrorConditionFailed.ToStatus ⟨"race"⟩).Code =
      (MDServerErrorThrottle.ToStatus ⟨"t"⟩).Code ∧
    MDServerErrorUnwrapper.UnwrapError
        (UnwrapArg.statusPtr (some (MDServerErrorConditionFailed.ToStatus ⟨"race"⟩)))
      = (some (MDServerErrorKind.throttle "race"), none) := by
  exact ⟨rfl, by decide, rfl, rfl⟩

/-- Claim C7: for a status record carrying any of the eleven taxonomy codes
2800–2810, `UnwrapError` returns the typed error kind assigned to that code
and a nil dispatch error. -/
theorem unwrapError_taxonomy (n d : String) (f : List (String × String)) :
    MDServerErrorUnwrapper.UnwrapError
        (UnwrapArg.statusPtr (some ⟨StatusCodeMDServerError, n, d, f⟩))
      = (some (MDServerErrorKind.serverError d), none) ∧
    MDServerErrorUnwrapper.UnwrapError
        (UnwrapArg.statusPtr (some ⟨StatusCodeMDServerErrorBadRequest, n, d, f⟩))
      = (some (MDServerErrorKind.badRequest d), none) ∧
    MDServerErrorUnwrapper.UnwrapError
        (UnwrapArg.statusPtr (some ⟨StatusCodeMDServerErrorConflictRevision, n, d, f⟩))
      = (some (MDServerErrorKind.conflictRevision d), none) ∧
    MDServerErrorUnwrapper.UnwrapError
        (UnwrapArg.statusPtr (some ⟨StatusCodeMDServerErrorConflictPrevRoot, n, d, f⟩))
      = (some (MDServerErrorKind.conflictPrevRoot d), none) ∧
    MDServerErrorUnwrapper.UnwrapError
        (UnwrapArg.statusPtr (some ⟨StatusCodeMDServerErrorConflictDiskUsage, n, d, f⟩))
      = (some (MDServerErrorKind.conflictDiskUsage d), none) ∧
    MDServerErrorUnwrapper.UnwrapError
        (UnwrapArg.statusPtr (some ⟨StatusCodeMDServerErrorLocked, n, d, f⟩))
      = (some MDServerErrorKind.locked, none) ∧
    MDServerErrorUnwrapper.UnwrapError
        (UnwrapArg.statusPtr (some ⟨StatusCodeMDServerErrorUnauthorized, n, d, f⟩))
      = (some MDServerErrorKind.unauthorized, none) ∧
    MDServerErrorUnwrapper.UnwrapError
        (UnwrapArg.statusPtr (some ⟨StatusCodeMDServerErrorThrottle, n, d, f⟩))
      = (some (MDServerErrorKind.throttle d), none) ∧
    MDServerErrorUnwrapper.UnwrapError
        (UnwrapArg.statusPtr (some ⟨StatusCodeMDServerErrorConditionFailed, n, d, f⟩))
      = (some (MDServerErrorKind.conditionFailed d), none) ∧
    MDServerErrorUnwrapper.UnwrapError
        (UnwrapArg.statusPtr (some ⟨StatusCodeMDServerErrorWriteAccess, n, d, f⟩))
      = (some MDServerErrorKind.writeAccess, none) ∧
    MDServerErrorUnwrapper.UnwrapError
        (UnwrapArg.statusPtr (some ⟨StatusCodeMDServerErrorConflictFolderMapping, n, d, f⟩))
      = (some (MDServerErrorKind.conflictFolderMapping d), none) := by
  exact ⟨rfl, rfl, rfl, rfl, rfl, rfl, rfl, rfl, rfl, rfl, rfl⟩

/-- Claim C8: for a status record whose code is non-zero and not one of the
eleven taxonomy codes, `UnwrapError` returns the generic application-status
error carrying the record's code, name, description and its key/value fields
(folded into a map exactly as the source's loop does, every key of the slice
ending up bound). -/
theorem unwrapError_unknown_code (s : Status) (h0 : s.Code ≠ 0)
    (hn : s.Code ∉ mdServerStatusCodes) :
    MDServerErrorUnwrapper.UnwrapError (UnwrapArg.statusPtr (some s))
      = (some (MDServerErrorKind.appStatusError s.Code s.Name s.Desc
          (buildFields s.Fields)), none) ∧
    ∀ p ∈ s.Fields, ∃ v0, (p.1, v0) ∈ buildFields s.Fields := by
  refine ⟨?_, exists_mem_buildFields s.Fields⟩
  simp only [mdServerStatusCodes, List.mem_cons, List.not_mem_nil, or_false, not_or] at hn
  obtain ⟨h1, h2, h3, h4, h5, h6, h7, h8, h9, h10, h11⟩ := hn
  simp only [MDServerErrorUnwrapper.UnwrapError, unwrapAppError,
    if_neg h0, if_neg h1, if_neg h2, if_neg h3, if_neg h4, if_neg h5, if_neg h6,
    if_neg h7, if_neg h8, if_neg h9, if_neg h10, if_neg h11]

/-- Witness for C8: a concrete record with code 42 is dispatched to the
generic application-status error. -/
theorem unwrapError_unknown_code_witness :
    ((42 : Int) ≠ 0) ∧ ((42 : Int) ∉ mdServerStatusCodes) ∧
    (MDServerErrorUnwrapper.UnwrapError
        (UnwrapArg.statusPtr (some ⟨42, "N", "D", [("k", "v")]⟩))
      = (some (MDServerErrorKind.appStatusError 42 "N" "D"
          (buildFields [("k", "v")])), none)) := by
  exact ⟨by decide, by decide,
    (unwrapError_unknown_code ⟨42, "N", "D", [("k", "v")]⟩ (by decide) (by decide)).1⟩

/-- Claim C10: `UnwrapError` yields no application error and no dispatch
error on a nil status pointer or a zero code; the dispatch error arises
exactly for an argument that is not a status pointer. -/
theorem unwrapError_nil_cases (n d : String) (f : List (String × String))
    (s : Option Status) :
    MDServerErrorUnwrapper.UnwrapError (UnwrapArg.statusPtr none) = (none, none) ∧
    MDServerErrorUnwrapper.UnwrapError (UnwrapArg.statusPtr (some ⟨0, n, d, f⟩))
      = (none, none) ∧
    (MDServerErrorUnwrapper.UnwrapError (UnwrapArg.statusPtr s)).2 = none ∧
    (MDServerErrorUnwrapper.UnwrapError UnwrapArg.nonStatus).2.isSome = true := by
  refine ⟨rfl, rfl, ?_, rfl⟩
  cases s <;> rfl

/-! ### Claim about splitExtension -/

/-- The two components returned by the loop body starting at any index
concatenate back to the input. -/
lemma splitExtensionAt_append (path : List Nat) :
    ∀ i, (splitExtensionAt path i).1 ++ (splitExtensionAt path i).2 = path := by
  intro i
  induction i with
  | zero => simp [splitExtensionAt]
  | succ n ih =>
    simp only [splitExtensionAt]
    split
    · split <;> split
      · simp
      · exact List.take_append_drop _ path
      · simp
      · exact List.take_append_drop _ path
    · split
      · simp
      · exact ih

/-- Claim C9: for every input, the base name and extension returned by
`splitExtension` concatenate back to exactly the input. -/
theorem splitExtension_append (path : List Nat) :
    (splitExtension path).1 ++ (splitExtension path).2 = path :=
  splitExtensionAt_append path (path.length - 1)

/-! ### Helper lemmas about branch conversion -/

/-- Inversion of a successful conversion step on a non-empty list: the head
is the clone re-stamped onto branch `b` with `prevRoot` pointing at the given
predecessor id, and the tail converts recursively from the head's new MdID. -/
lemma convertEntries_cons_inv {b : BranchID} {sg : Signer} {prev : MdID} {e : BareRMD}
    {rest out : List BareRMD} {sg' : Signer}
    (h : convertEntries b sg prev (e :: rest) = (some out, sg')) :
    ∃ sg2 out1,
      out = { e with bid := b, mStatus := MergeStatus.Unmerged, prevRoot := prev } :: out1 ∧
      convertEntries b sg2
          (mdID { e with bid := b, mStatus := MergeStatus.Unmerged, prevRoot := prev }) rest
        = (some out1, sg') := by
  rw [convertEntries] at h
  split at h
  · simp at h
  · split at h
    · simp at h
    · rename_i sg1 hs1 sg2 hs2
      split at h
      · simp at h
      · rename_i out1 sg3 hrec
        injection h with h1 h2
        injection h1 with h1
        exact ⟨sg2, out1, h1.symm, by rw [hrec, h2]⟩

/-- A successful conversion preserves the revision sequence and stamps every
converted entry with branch `b` and `Unmerged` status. -/
lemma convertEntries_map_rev {b : BranchID} :
    ∀ {es : List BareRMD} {sg : Signer} {prev : MdID} {out : List BareRMD} {sg' : Signer},
      convertEntries b sg prev es = (some out, sg') →
      out.map BareRMD.revision = es.map BareRMD.revision ∧
      ∀ x ∈ out, x.bid = b ∧ x.mStatus = MergeStatus.Unmerged := by
  intro es
  induction es with
  | nil =>
    intro sg prev out sg' h
    rw [convertEntries] at h
    injection h with h1 h2
    injection h1 with h1
    refine ⟨by rw [← h1], ?_⟩
    intro x hx
    rw [← h1] at hx
    cases hx
  | cons e rest ih =>
    intro sg prev out sg' h
    obtain ⟨sg2, out1, rfl, hrec⟩ := convertEntries_cons_inv h
    obtain ⟨hmap, hall⟩ := ih hrec
    constructor
    · simp [hmap]
    · intro x hx
      rcases List.mem_cons.mp hx with rfl | hx
      · exact ⟨rfl, rfl⟩
      · exact hall x hx

/-- A valid chain after `a` has consecutive revision numbers after
`a.revision`. -/
lemma chainAfter_revsFrom :
    ∀ {es : List BareRMD} {a : BareRMD},
      chainAfter a es = true → revsFrom a.revision es = true := by
  intro es
  induction es with
  | nil => intro a _; rfl
  | cons f rest ih =>
    intro a h
    rw [chainAfter, Bool.and_eq_true] at h
    obtain ⟨h1, h2⟩ := h
    rw [CheckValidSuccessor] at h1
    simp only [Bool.and_eq_true, decide_eq_true_eq] at h1
    rw [revsFrom, Bool.and_eq_true]
    exact ⟨by simp [h1.1.1.1], ih h2⟩

/-- If the original revisions continue consecutively after `a.revision` and
`a` is already stamped onto branch `b`, the converted tail chains validly
after `a`. -/
lemma convertEntries_chain {b : BranchID} :
    ∀ {es : List BareRMD} {sg : Signer} {a : BareRMD} {out : List BareRMD} {sg' : Signer},
      a.bid = b → a.mStatus = MergeStatus.Unmerged →
      revsFrom a.revision es = true →
      convertEntries b sg (mdID a) es = (some out, sg') →
      chainAfter a out = true := by
  intro es
  induction es with
  | nil =>
    intro sg a out sg' _ _ _ h
    rw [convertEntries] at h
    injection h with h1 h2
    injection h1 with h1
    rw [← h1]
    rfl
  | cons f rest ih =>
    intro sg a out sg' hb hm hrev h
    obtain ⟨sg2, out1, rfl, hrec⟩ := convertEntries_cons_inv h
    rw [revsFrom, Bool.and_eq_true, decide_eq_true_eq] at hrev
    obtain ⟨hr1, hr2⟩ := hrev
    rw [chainAfter, Bool.and_eq_true]
    constructor
    · rw [CheckValidSuccessor]
      simp [hr1, hb, hm]
    · exact ih (by simp) (by simp) (by simpa using hr2) hrec

/-- What a successful `convertToBranch` guarantees: the journal records the
new branch id, the revision sequence is untouched, and every entry is
re-stamped onto the new branch as unmerged. -/
lemma convertToBranch_ok {j : MDJournal} {sg : Signer} {b : BranchID} {u : Unit}
    {j' : MDJournal} {sg' : Signer}
    (h : j.convertToBranch sg b = (Except.ok u, j', sg')) :
    j'.branchID = b ∧
    j'.entries.map BareRMD.revision = j.entries.map BareRMD.revision ∧
    ∀ x ∈ j'.entries, x.bid = b ∧ x.mStatus = MergeStatus.Unmerged := by
  unfold MDJournal.convertToBranch at h
  split at h
  · simp at h
  · split at h
    · rename_i heq
      injection h with h1 h2
      injection h2 with h2 h3
      rw [← h2, heq]
      refine ⟨rfl, rfl, ?_⟩
      intro x hx
      cases hx
    · rename_i e rest heq
      split at h
      · simp at h
      · rename_i out sgx hce
        injection h with h1 h2
        injection h2 with h2 h3
        obtain ⟨hmap, hall⟩ := convertEntries_map_rev hce
        rw [← h2, heq]
        exact ⟨rfl, hmap, hall⟩

/-! ### Claims about the MD journal -/

/-- Claim C3 (spec-modelled): `convertToBranch` is atomic in effect — on any
failure the journal is returned unchanged: same entries, same merge status,
same branch id, same length. -/
theorem mdJournal_convertToBranch_atomic (j : MDJournal) (sg : Signer) (b : BranchID)
    (er : ConvertErr) (j' : MDJournal) (sg' : Signer)
    (h : j.convertToBranch sg b = (Except.error er, j', sg')) : j' = j := by
  unfold MDJournal.convertToBranch at h
  split at h
  · injection h with h1 h2
    injection h2 with h2 h3
    exact h2.symm
  · split at h
    · simp at h
    · split at h
      · injection h with h1 h2
        injection h2 with h2 h3
        exact h2.symm
      · simp at h

/-- First sample journal entry: revision 10 on the master branch, chained to
the seed MdID the tests fake. -/
def rmdA : BareRMD := ⟨10, 0, MergeStatus.Merged, MdID.fake 1⟩

/-- Second sample journal entry: revision 11, a valid successor of `rmdA`. -/
def rmdB : BareRMD := ⟨11, 0, MergeStatus.Merged, mdID rmdA⟩

/-- The image of `rmdA` under conversion to branch 5. -/
def rmdA5 : BareRMD := ⟨10, 5, MergeStatus.Unmerged, MdID.fake 1⟩

/-- The image of `rmdB` under conversion to branch 5. -/
def rmdB5 : BareRMD := ⟨11, 5, MergeStatus.Unmerged, mdID rmdA5⟩

/-- Witness for C3: a signer with one signature left fails while converting a
two-entry journal, and the journal comes back unchanged. -/
theorem mdJournal_convertToBranch_atomic_witness :
    MDJournal.convertToBranch ⟨[rmdA, rmdB], 0⟩ ⟨some 1⟩ 5
      = (Except.error ConvertErr.signFailed, ⟨[rmdA, rmdB], 0⟩, ⟨some 0⟩) ∧
    (⟨[rmdA, rmdB], 0⟩ : MDJournal) = ⟨[rmdA, rmdB], 0⟩ := by
  have heq : MDJournal.convertToBranch ⟨[rmdA, rmdB], 0⟩ ⟨some 1⟩ 5
      = (Except.error ConvertErr.signFailed, ⟨[rmdA, rmdB], 0⟩, ⟨some 0⟩) := by rfl
  exact ⟨heq, mdJournal_convertToBranch_atomic _ _ _ _ _ _ heq⟩

/-- Claim C4 (spec-modelled): after a successful `convertToBranch` on a
non-empty merged journal with a fresh non-null branch id, every entry carries
that branch id and `Unmerged` status, length and revision numbers are
unchanged, and adjacent entries still satisfy `CheckValidSuccessor`. -/
theorem mdJournal_convertToBranch_success (j : MDJournal) (sg : Signer) (b : BranchID)
    (j' : MDJournal) (sg' : Signer)
    (hne : j.entries ≠ [])
    (hchain : validChain j.entries = true)
    (hb : b ≠ NullBranchID)
    (h : j.convertToBranch sg b = (Except.ok (), j', sg')) :
    j'.branchID = b ∧ j'.branchID ≠ NullBranchID ∧
    (∀ x ∈ j'.entries, x.bid = b ∧ x.mStatus = MergeStatus.Unmerged) ∧
    j'.entries.length = j.entries.length ∧
    j'.entries.map BareRMD.revision = j.entries.map BareRMD.revision ∧
    validChain j'.entries = true := by
  obtain ⟨hbr, hmap, hall⟩ := convertToBranch_ok h
  have hlen : j'.entries.length = j.entries.length := by
    have hl := congrArg List.length hmap
    simpa using hl
  refine ⟨hbr, by rw [hbr]; exact hb, hall, hlen, hmap, ?_⟩
  unfold MDJournal.convertToBranch at h
  split at h
  · simp at h
  · split at h
    · rename_i heq
      exact absurd heq hne
    · rename_i e rest heq
      split at h
      · simp at h
      · rename_i out sgx hce
        injection h with h1 h2
        injection h2 with h2 h3
        obtain ⟨sg2, out1, hout, hrec⟩ := convertEntries_cons_inv hce
        rw [← h2]
        rw [hout, validChain]
        apply convertEntries_chain (by simp) (by simp) ?_ hrec
        rw [heq, validChain] at hchain
        have hrv := chainAfter_revsFrom hchain
        simpa using hrv

/-- Witness for C4: converting the two-entry merged journal with an unlimited
signer onto branch 5 yields the expected unmerged journal with all the
claimed properties. -/
theorem mdJournal_convertToBranch_success_witness :
    (([rmdA, rmdB] : List BareRMD) ≠ []) ∧
    validChain [rmdA, rmdB] = true ∧ ((5 : BranchID) ≠ NullBranchID) ∧
    ((⟨[rmdA5, rmdB5], 5⟩ : MDJournal).branchID = 5 ∧
     (⟨[rmdA5, rmdB5], 5⟩ : MDJournal).branchID ≠ NullBranchID ∧
     (∀ x ∈ (⟨[rmdA5, rmdB5], 5⟩ : MDJournal).entries,
        x.bid = 5 ∧ x.mStatus = MergeStatus.Unmerged) ∧
     (⟨[rmdA5, rmdB5], 5⟩ : MDJournal).entries.length
        = (⟨[rmdA, rmdB], 0⟩ : MDJournal).entries.length ∧
     (⟨[rmdA5, rmdB5], 5⟩ : MDJournal).entries.map BareRMD.revision
        = (⟨[rmdA, rmdB], 0⟩ : MDJournal).entries.map BareRMD.revision ∧
     validChain (⟨[rmdA5, rmdB5], 5⟩ : MDJournal).entries = true) := by
  refine ⟨by decide, by decide, by decide, ?_⟩
  exact mdJournal_convertToBranch_success ⟨[rmdA, rmdB], 0⟩ ⟨none⟩ 5
    ⟨[rmdA5, rmdB5], 5⟩ ⟨none⟩ (by decide) (by decide) (by decide) (by rfl)

/-- Claim C5 (spec-modelled): `clear` with the null id always fails; with a
non-null id different from the journal's it succeeds changing nothing; with
the journal's own non-null id it empties the journal and resets the branch id
to null; and clearing again with the same id succeeds changing nothing. -/
theorem mdJournal_clear_spec (j : MDJournal) (bid : BranchID) :
    (j.clear NullBranchID = (Except.error ClearErr.clearMaster, j)) ∧
    (bid ≠ NullBranchID → bid ≠ j.branchID → j.clear bid = (Except.ok (), j)) ∧
    (bid ≠ NullBranchID → bid = j.branchID →
      j.clear bid = (Except.ok (), (⟨[], NullBranchID⟩ : MDJournal)) ∧
      (j.clear bid).2.clear bid = (Except.ok (), (j.clear bid).2)) := by
  refine ⟨?_, ?_, ?_⟩
  · unfold MDJournal.clear
    rw [if_pos rfl]
  · intro h1 h2
    unfold MDJournal.clear
    rw [if_neg h1, if_neg h2]
  · intro h1 h2
    have hc : j.clear bid = (Except.ok (), (⟨[], NullBranchID⟩ : MDJournal)) := by
      unfold MDJournal.clear
      rw [if_neg h1, if_pos h2]
    refine ⟨hc, ?_⟩
    rw [hc]
    unfold MDJournal.clear
    rw [if_neg h1, if_neg h1]

/-- Witness for C5: on a journal holding one entry on branch 7, clearing
branch 9 changes nothing and clearing branch 7 empties and resets. -/
theorem mdJournal_clear_spec_witness :
    ((9 : BranchID) ≠ NullBranchID) ∧ ((9 : BranchID) ≠ (7 : BranchID)) ∧
    ((7 : BranchID) ≠ NullBranchID) ∧
    MDJournal.clear ⟨[rmdA], 7⟩ 9 = (Except.ok (), ⟨[rmdA], 7⟩) ∧
    MDJournal.clear ⟨[rmdA], 7⟩ 7 = (Except.ok (), (⟨[], NullBranchID⟩ : MDJournal)) := by
  refine ⟨by decide, by decide, by decide, ?_, ?_⟩
  · exact (mdJournal_clear_spec ⟨[rmdA], 7⟩ 9).2.1 (by decide) (by decide)
  · exact ((mdJournal_clear_spec ⟨[rmdA], 7⟩ 7).2.2 (by decide) rfl).1

/-- Claim C2 (spec-modelled): the double-flush rule.  A `flushOne` under a
cancelled context leaves the journal unchanged even though the put landed on
the server; a later `flushOne` that receives `ConflictRevision` consults
`GetRange` and, since the server's tail has the same MdID as the local
earliest entry, treats it as an idempotent success, consumes the entry and
returns `true`. -/
theorem mdJournal_flushOne_doubleFlush (e tl : BareRMD)
    (rest rs gr rms gr2 : List BareRMD) (bid0 b : BranchID) (sg : Signer)
    (hlast : gr2.getLast? = some tl) (hmatch : mdID tl = mdID e) :
    MDJournal.flushOne ⟨e :: rest, bid0⟩ sg b true ⟨rs, gr, none⟩
      = (Except.error FlushErr.cancelled, ⟨e :: rest, bid0⟩, sg, ⟨rs ++ [e], gr, none⟩) ∧
    MDJournal.flushOne ⟨e :: rest, bid0⟩ sg b false ⟨rms, gr2, some PutErr.conflictRevision⟩
      = (Except.ok true, ⟨rest, bid0⟩, sg, ⟨rms, [], none⟩) := by
  constructor
  · rfl
  · have htm : tailMatches gr2 e = true := by
      unfold tailMatches
      rw [hlast]
      simp [hmatch]
    simp [MDJournal.flushOne, ShimMDServer.put, ShimMDServer.getRange, htm]

/-- Witness for C2: the concrete double-flush scenario of
`TestMDJournalDoubleFlush` — a one-entry journal, a cancelled flush that
lands on the server, then a conflicting flush that finds the identical RMDS
in the range and empties the journal. -/
theorem mdJournal_flushOne_doubleFlush_witness :
    (([rmdA] : List BareRMD).getLast? = some rmdA) ∧ (mdID rmdA = mdID rmdA) ∧
    MDJournal.flushOne ⟨[rmdA], 0⟩ ⟨none⟩ 5 true ⟨[], [], none⟩
      = (Except.error FlushErr.cancelled, ⟨[rmdA], 0⟩, ⟨none⟩, ⟨[rmdA], [], none⟩) ∧
    MDJournal.flushOne ⟨[rmdA], 0⟩ ⟨none⟩ 5 false ⟨[rmdA], [rmdA], some PutErr.conflictRevision⟩
      = (Except.ok true, ⟨[], 0⟩, ⟨none⟩, ⟨[rmdA], [], none⟩) := by
  have h := mdJournal_flushOne_doubleFlush rmdA rmdA [] [] [] [rmdA] [rmdA] 0 5 ⟨none⟩
    rfl rfl
  exact ⟨rfl, rfl, h.1, h.2⟩

/-- Claim C6 (spec-modelled): `flushOne` on an empty journal returns `false`
without error and without contacting the server (the result, including the
returned server state, does not depend on the server at all); and whenever
`flushOne` returns `true` the journal has exactly lost its earliest entry —
the remaining revision sequence is the tail of the original and the length
drops by exactly one. -/
theorem mdJournal_flushOne_consumes_one (j : MDJournal) (sg : Signer) (b : BranchID)
    (c : Bool) (srv : ShimMDServer) :
    (j.entries = [] → j.flushOne sg b c srv = (Except.ok false, j, sg, srv)) ∧
    ((j.flushOne sg b c srv).1 = Except.ok true →
      (j.flushOne sg b c srv).2.1.entries.map BareRMD.revision
          = (j.entries.map BareRMD.revision).tail ∧
      (j.flushOne sg b c srv).2.1.entries.length + 1 = j.entries.length) := by
  obtain ⟨es, bid0⟩ := j
  obtain ⟨rs, gr, ne⟩ := srv
  cases es with
  | nil =>
    refine ⟨fun _ => rfl, fun hok => ?_⟩
    simp [MDJournal.flushOne] at hok
  | cons e rest =>
    refine ⟨fun he => by simp at he, ?_⟩
    intro hok
    cases ne with
    | none =>
      cases c with
      | true => simp [MDJournal.flushOne, ShimMDServer.put] at hok
      | false =>
        constructor
        · simp [MDJournal.flushOne, ShimMDServer.put]
        · simp [MDJournal.flushOne, ShimMDServer.put]
    | some pe =>
      cases pe with
      | cancelled => simp [MDJournal.flushOne, ShimMDServer.put] at hok
      | other => simp [MDJournal.flushOne, ShimMDServer.put] at hok
      | conflictRevision =>
        cases htm : tailMatches gr e with
        | true =>
          constructor
          · simp [MDJournal.flushOne, ShimMDServer.put, ShimMDServer.getRange, htm]
          · simp [MDJournal.flushOne, ShimMDServer.put, ShimMDServer.getRange, htm]
        | false =>
          by_cases hb0 : bid0 = NullBranchID
          · subst hb0
            cases hcv : MDJournal.convertToBranch ⟨e :: rest, NullBranchID⟩ sg b with
            | mk r rest1 =>
              obtain ⟨j1, sg1⟩ := rest1
              cases r with
              | error er =>
                simp [MDJournal.flushOne, ShimMDServer.put, ShimMDServer.getRange,
                  htm, hcv] at hok
              | ok u =>
                obtain ⟨hbr, hmap, hall⟩ := convertToBranch_ok hcv
                cases hje : j1.entries with
                | nil =>
                  rw [hje] at hmap
                  simp at hmap
                | cons e2 rest2 =>
                  cases c with
                  | true =>
                    simp [MDJournal.flushOne, ShimMDServer.put, ShimMDServer.getRange,
                      htm, hcv, hje] at hok
                  | false =>
                    have hres : MDJournal.flushOne ⟨e :: rest, NullBranchID⟩ sg b false
                        ⟨rs, gr, some PutErr.conflictRevision⟩
                        = (Except.ok true, ⟨rest2, j1.branchID⟩, sg1,
                           ⟨rs ++ [e2], [], none⟩) := by
                      simp [MDJournal.flushOne, ShimMDServer.put, ShimMDServer.getRange,
                        htm, hcv, hje]
                    rw [hres]
                    rw [hje] at hmap
                    simp only [List.map_cons] at hmap
                    constructor
                    · have ht := congrArg List.tail hmap
                      simpa using ht
                    · have hl := congrArg List.length hmap
                      simp only [List.length_cons] at hl
                      simpa using hl
          · simp [MDJournal.flushOne, ShimMDServer.put, ShimMDServer.getRange,
              htm, hb0] at hok

/-- Witness for C6: on the empty journal `flushOne` is a no-op returning
`false`; on a one-entry journal with a clean server it returns `true` and the
journal empties. -/
theorem mdJournal_flushOne_consumes_one_witness :
    MDJournal.flushOne ⟨[], 0⟩ ⟨none⟩ 5 false ⟨[], [], none⟩
      = (Except.ok false, ⟨[], 0⟩, ⟨none⟩, ⟨[], [], none⟩) ∧
    ((MDJournal.flushOne ⟨[rmdA], 0⟩ ⟨none⟩ 5 false ⟨[], [], none⟩).2.1.entries.map
        BareRMD.revision
      = (([rmdA] : List BareRMD).map BareRMD.revision).tail ∧
     (MDJournal.flushOne ⟨[rmdA], 0⟩ ⟨none⟩ 5 false ⟨[], [], none⟩).2.1.entries.length + 1
      = ([rmdA] : List BareRMD).length) := by
  exact ⟨(mdJournal_flushOne_consumes_one ⟨[], 0⟩ ⟨none⟩ 5 false ⟨[], [], none⟩).1 rfl,
    (mdJournal_flushOne_consumes_one ⟨[rmdA], 0⟩ ⟨none⟩ 5 false ⟨[], [], none⟩).2 rfl⟩
